import Mathlib

/-!
Verification of the AliensVoteBot vote-submission pipeline.

Shallow embedding of:
  * `captcha_gen.generate_captcha_image` — the arithmetic/option logic
    (image rendering is presentation and is not modelled);
  * `database.Database.add_vote`, `get_vote_number`, `has_voted` — the vote
    ledger over the `votes` table with its UNIQUE(poll_id, user_id) constraint;
  * `handlers/vote.cb_vote_option` and `cb_captcha_answer` — the challenge
    state machine.

Randomness is modelled by explicit draw parameters: `random.randint(lo, hi)`
becomes `lo + n % (hi - lo + 1)` for an arbitrary natural `n` (the image of
that map is exactly the interval [lo, hi]), `random.choice` becomes an indexed
selection, and `random.shuffle` becomes the application of an arbitrary
permutation supplied as a draw.  Storage failures (SQLite "database is locked"
contention and other errors) are modelled by a per-attempt environment list.
-/

namespace AliensVoteBot

/-! ### captcha_gen.py -/

/-- The operator drawn by `random.choice(["+", "-", "×"])`. -/
inductive CaptchaOp
  | add
  | sub
  | mul
deriving DecidableEq

/-- Model of `random.randint(lo, hi)`: `lo + n % (hi - lo + 1)` where `n` is an
arbitrary draw; the image of this map is exactly the integer interval [lo, hi]. -/
def randint (lo hi n : Nat) : Nat := lo + n % (hi - lo + 1)

/-- The per-call random draws consumed by `generate_captcha_image`. -/
structure CaptchaDraws where
  opSel : Nat
  aRaw : Nat
  bRaw : Nat
  diffRaws : List (Nat × Bool)
  permSel : List Nat
deriving DecidableEq

/-- `op = random.choice(["+", "-", "×"])`. -/
def chooseOp (n : Nat) : CaptchaOp :=
  match n % 3 with
  | 0 => .add
  | 1 => .sub
  | _ => .mul

/-- The correct answer, from the operand draws of `generate_captcha_image`:
`+` has `a, b = randint(1, 50), randint(1, 50)`; `-` has `a = randint(10, 60)`,
`b = randint(1, a)`; `×` has `a, b = randint(2, 12), randint(2, 12)`. -/
def captchaAnswer : CaptchaOp → Nat → Nat → Int
  | .add, aRaw, bRaw => (randint 1 50 aRaw : Int) + (randint 1 50 bRaw : Int)
  | .sub, aRaw, bRaw =>
      let a := randint 10 60 aRaw
      let b := randint 1 a bRaw
      (a : Int) - (b : Int)
  | .mul, aRaw, bRaw => (randint 2 12 aRaw : Int) * (randint 2 12 bRaw : Int)

/-- `diff = random.randint(1, 10) * random.choice([-1, 1])`. -/
def diffDraw : Nat × Bool → Int
  | (m, sign) => (randint 1 10 m : Int) * (if sign then 1 else -1)

/-- The `while len(wrong) < 3` loop of `generate_captcha_image`: each drawn
`diff` gives `w = answer + diff`, accepted iff `w != answer and w >= 0 and
w not in wrong`.  The draw stream is finite here, so exhausting it before
three decoys are found returns `none` (in Python the loop would keep
drawing). -/
def buildWrong (answer : Int) (acc : List Int) : List Int → Option (List Int)
  | [] => if 3 ≤ acc.length then some acc else none
  | d :: rest =>
    if 3 ≤ acc.length then some acc
    else
      let w := answer + d
      if w ≠ answer ∧ 0 ≤ w ∧ w ∉ acc then buildWrong answer (acc ++ [w]) rest
      else buildWrong answer acc rest

/-- Model of `random.shuffle`: apply the permutation of positions supplied by
the draw `sel` (any list that is a permutation of `range l.length`); an
ill-formed draw leaves the list unchanged. -/
def applyShuffle (sel : List Nat) (l : List Int) : List Int :=
  if (sel.isPerm (List.range l.length)) = true then sel.map (fun i => l.getD i 0) else l

/-- The returned pair of `generate_captcha_image` (answer and the four
options); the PNG bytes are presentation and are not modelled. -/
structure CaptchaOut where
  answer : Int
  options : List Int
deriving DecidableEq

/-- `generate_captcha_image`: draw operator and operands, compute the answer,
build three distinct decoys, then `options = list(wrong) + [answer]` shuffled. -/
def generate_captcha_image (d : CaptchaDraws) : Option CaptchaOut :=
  let op := chooseOp d.opSel
  let answer := captchaAnswer op d.aRaw d.bRaw
  (buildWrong answer [] (d.diffRaws.map diffDraw)).map
    (fun wrong => ⟨answer, applyShuffle d.permSel (wrong ++ [answer])⟩)

/-! ### database.py — the `votes` table and `add_vote` -/

/-- A row of the `votes` table: `id INTEGER PRIMARY KEY AUTOINCREMENT`,
`poll_id TEXT`, `user_id INTEGER`, `option_index INTEGER`,
with `UNIQUE(poll_id, user_id)` (the timestamp column is not modelled). -/
structure VoteRow where
  id : Nat
  poll_id : String
  user_id : Nat
  option_index : Nat
deriving DecidableEq

/-- The `votes` table: rows in insertion order plus the AUTOINCREMENT counter. -/
structure VotesTable where
  rows : List VoteRow
  nextId : Nat
deriving DecidableEq

/-- The freshly created table (AUTOINCREMENT starts at 1). -/
def VotesTable.empty : VotesTable := ⟨[], 1⟩

/-- `has_voted`: `SELECT 1 FROM votes WHERE poll_id = ? AND user_id = ?`
is non-empty. -/
def has_voted (t : VotesTable) (p : String) (u : Nat) : Bool :=
  t.rows.any (fun r => r.poll_id == p && r.user_id == u)

/-- Effect of a successful
`INSERT INTO votes (poll_id, user_id, option_index) VALUES (?, ?, ?)`:
append a row carrying the AUTOINCREMENT id. -/
def insertVote (t : VotesTable) (p : String) (u : Nat) (oi : Nat) : VotesTable :=
  ⟨t.rows ++ [⟨t.nextId, p, u, oi⟩], t.nextId + 1⟩

/-- Per-attempt storage environment, one entry per loop iteration of
`add_vote`: the statement either runs (`ok` — it may still hit the UNIQUE
constraint), or raises a "database is locked" contention error, or raises
any other exception. -/
inductive AttemptEnv
  | ok
  | locked
  | otherFail
deriving DecidableEq

/-- Outcome of one `try` body of `add_vote`'s loop. -/
inductive AttemptResult
  | inserted (t : VotesTable)
  | dup
  | lockedErr
  | otherErr
deriving DecidableEq

/-- One `try: execute(INSERT ...); commit()` body.  Under `ok` the insert hits
the UNIQUE(poll_id, user_id) constraint (an `IntegrityError`, whose message
does not contain "locked") exactly when a row for (p, u) already exists;
`locked`/`otherFail` raise, and the `rollback` leaves the table unchanged. -/
def runAttempt (t : VotesTable) (p : String) (u : Nat) (oi : Nat) :
    AttemptEnv → AttemptResult
  | .ok => if has_voted t p u then .dup else .inserted (insertVote t p u oi)
  | .locked => .lockedErr
  | .otherFail => .otherErr

/-- What a call of `add_vote` did: the returned Bool, the resulting table, how
many times the INSERT statement was executed, and the backoff sleeps (in ms,
`0.3 * (attempt + 1)` seconds) in order. -/
structure AddVoteTrace where
  success : Bool
  table : VotesTable
  inserts : Nat
  sleeps : List Nat
deriving DecidableEq

/-- `add_vote`: `for attempt in range(3)`: run the insert; on success return
`True`; on an exception whose message contains "locked", if `attempt < 2`
sleep `0.3 * (attempt + 1)` seconds and retry, else return `False`; on any
other exception return `False` at once.  The loop is unrolled into its three
iterations; `envs` supplies the per-attempt storage environment (missing
entries default to `ok`). -/
def add_vote (t : VotesTable) (p : String) (u : Nat) (oi : Nat)
    (envs : List AttemptEnv) : AddVoteTrace :=
  match runAttempt t p u oi (envs.getD 0 .ok) with
  | .inserted t1 => ⟨true, t1, 1, []⟩
  | .dup => ⟨false, t, 1, []⟩
  | .otherErr => ⟨false, t, 1, []⟩
  | .lockedErr =>
    match runAttempt t p u oi (envs.getD 1 .ok) with
    | .inserted t1 => ⟨true, t1, 2, [300]⟩
    | .dup => ⟨false, t, 2, [300]⟩
    | .otherErr => ⟨false, t, 2, [300]⟩
    | .lockedErr =>
      match runAttempt t p u oi (envs.getD 2 .ok) with
      | .inserted t1 => ⟨true, t1, 3, [300, 600]⟩
      | .dup => ⟨false, t, 3, [300, 600]⟩
      | .otherErr => ⟨false, t, 3, [300, 600]⟩
      | .lockedErr => ⟨false, t, 3, [300, 600]⟩

/-- `get_vote_number`: `SELECT COUNT(*) FROM votes WHERE poll_id = ? AND id <=
(SELECT id FROM votes WHERE poll_id = ? AND user_id = ?)`.  The scalar
subquery yields the first matching row's id, or NULL when the voter has no
vote in the poll — and SQL's `id <= NULL` filters out every row, so the
count is 0. -/
def get_vote_number (t : VotesTable) (p : String) (u : Nat) : Nat :=
  match (t.rows.filter (fun r => r.poll_id == p && r.user_id == u)).head? with
  | none => 0
  | some row => (t.rows.filter (fun r => r.poll_id == p && decide (r.id ≤ row.id))).length

/-- The votes of one poll, in insertion order
(`filter` keeps `t.rows`'s order). -/
def pollVotes (t : VotesTable) (p : String) : List VoteRow :=
  t.rows.filter (fun r => r.poll_id == p)

/-- The vote-table states reachable from the fresh table by any finite
sequence of `add_vote` calls (concurrent calls on the single serialized
SQLite connection execute in some interleaved order, i.e. as some such
sequence), under arbitrary storage environments. -/
inductive Reachable : VotesTable → Prop
  | init : Reachable VotesTable.empty
  | step (t : VotesTable) (p : String) (u : Nat) (oi : Nat) (envs : List AttemptEnv) :
      Reachable t → Reachable (add_vote t p u oi envs).table

/-! ### handlers/vote.py — the challenge state machine -/

/-- The fields of a poll row the vote path reads (question text and the
decoded `options` list). -/
structure Poll where
  question : String
  options : List String
deriving DecidableEq

/-- The FSM session data of `VoteProcess.solving_captcha`: keys `poll_id`,
`option_index`, `captcha_solved`, `captcha_answer` (the message-id key is
presentation and not modelled). -/
structure Session where
  poll_id : String
  option_index : Nat
  captcha_solved : Nat
  captcha_answer : Int
deriving DecidableEq

/-- Environment of one handler invocation: the answer of the captcha that
`_send_captcha` would generate if called, and the storage environment for
`add_vote` if it is called. -/
structure HandlerEnv where
  newAnswer : Int
  dbEnvs : List AttemptEnv
deriving DecidableEq

/-- The fallback label shown for an out-of-range option index: "?". -/
def unknownOption : String := "?"

/-- `chosen = options[option_index] if option_index < len(options) else "?"`. -/
def chosenLabel (options : List String) (option_index : Nat) : String :=
  if h : option_index < options.length then options.get ⟨option_index, h⟩ else unknownOption

/-- Which reply `cb_captcha_answer` ends with. -/
inductive CaptchaMsg
  | pollNotFound
  | wrongAnswer
  | nextRound
  | voteRegistered
  | alreadyVoted
deriving DecidableEq

/-- Observable outcome of one `cb_captcha_answer` call: the session
afterwards (`none` = `state.clear()`), how many times `db.add_vote` was
called, the table afterwards, the `(solved, answer)` pair passed into
`_send_captcha` when a fresh captcha is sent, and the reply shown. -/
structure CaptchaStepResult where
  session : Option Session
  commitCalls : Nat
  table : VotesTable
  sentCaptcha : Option (Nat × Int)
  msg : CaptchaMsg
deriving DecidableEq

/-- `cb_captcha_answer` (state `VoteProcess.solving_captcha`): look up the
poll (clearing the session if gone); on a wrong answer regenerate the same
round via `_send_captcha` (which stores the new answer in the session); on a
correct answer increment `solved`; if `solved >= config.CAPTCHA_COUNT` call
`add_vote` once and clear the session whether or not it succeeded, else store
the incremented counter and send the next round.  `CAPTCHA_COUNT` comes from
the config module (not among the modelled sources), so it is a parameter. -/
def cb_captcha_answer (CAPTCHA_COUNT : Nat) (pollLookup : Option Poll)
    (env : HandlerEnv) (t : VotesTable) (user_id : Nat) (sess : Session)
    (selected : Int) : CaptchaStepResult :=
  match pollLookup with
  | none => ⟨none, 0, t, none, .pollNotFound⟩
  | some _poll =>
    if selected ≠ sess.captcha_answer then
      ⟨some { sess with captcha_answer := env.newAnswer }, 0, t,
        some (sess.captcha_solved, env.newAnswer), .wrongAnswer⟩
    else
      let solved := sess.captcha_solved + 1
      if CAPTCHA_COUNT ≤ solved then
        let tr := add_vote t sess.poll_id user_id sess.option_index env.dbEnvs
        ⟨none, 1, tr.table, none, if tr.success then .voteRegistered else .alreadyVoted⟩
      else
        ⟨some { sess with captcha_solved := solved, captcha_answer := env.newAnswer },
          0, t, some (solved, env.newAnswer), .nextRound⟩

/-- Which reply `cb_vote_option` ends with. -/
inductive BeginMsg
  | alreadyVotedAlert
  | pollNotFoundAlert
  | started
deriving DecidableEq

/-- Observable outcome of one `cb_vote_option` call: the session created (if
any), the `(solved, answer)` pair of the captcha sent, the `chosen` option
label displayed, and the reply. -/
structure BeginResult where
  session : Option Session
  sentCaptcha : Option (Nat × Int)
  label : Option String
  msg : BeginMsg
deriving DecidableEq

/-- `cb_vote_option` (callback `v:{poll_id}:{i}`): reject if `has_voted`;
reject if the poll is gone; otherwise compute the `chosen` label (falling
back to "?" past the end of the option list), create the session with
`captcha_solved = 0`, and send round 1's captcha, which stores its answer. -/
def cb_vote_option (pollLookup : Option Poll) (env : HandlerEnv)
    (t : VotesTable) (user_id : Nat) (poll_id : String) (option_index : Nat) :
    BeginResult :=
  if has_voted t poll_id user_id then ⟨none, none, none, .alreadyVotedAlert⟩
  else
    match pollLookup with
    | none => ⟨none, none, none, .pollNotFoundAlert⟩
    | some poll =>
      ⟨some ⟨poll_id, option_index, 0, env.newAnswer⟩, some (0, env.newAnswer),
        some (chosenLabel poll.options option_index), .started⟩

/-! ### Lemmas about the captcha generator -/

lemma captchaAnswer_nonneg (op : CaptchaOp) (aRaw bRaw : Nat) :
    0 ≤ captchaAnswer op aRaw bRaw := by
  cases op with
  | add => simp only [captchaAnswer]; positivity
  | sub =>
    simp only [captchaAnswer, randint]
    have h2 : bRaw % (10 + aRaw % (60 - 10 + 1) - 1 + 1) < 10 + aRaw % (60 - 10 + 1) - 1 + 1 :=
      Nat.mod_lt _ (by omega)
    omega
  | mul => simp only [captchaAnswer]; positivity

lemma diffDraw_range (x : Nat × Bool) : 1 ≤ |diffDraw x| ∧ |diffDraw x| ≤ 10 := by
  rcases x with ⟨m, s⟩
  have hm : m % (10 - 1 + 1) < 10 := Nat.mod_lt _ (by omega)
  rcases s <;> simp only [diffDraw, randint, if_true, if_false, Bool.false_eq_true,
    mul_one, mul_neg, abs_neg] <;>
    rw [abs_of_nonneg (by positivity)] <;>
    constructor <;> omega

lemma buildWrong_sound (answer : Int) :
    ∀ (diffs acc out : List Int), buildWrong answer acc diffs = some out →
      ∀ w ∈ out, w ∈ acc ∨ ((∃ d ∈ diffs, w = answer + d) ∧ w ≠ answer ∧ 0 ≤ w) := by
  intro diffs
  induction diffs with
  | nil =>
    intro acc out h w hw
    simp only [buildWrong] at h
    split at h
    · cases h; exact Or.inl hw
    · cases h
  | cons d rest ih =>
    intro acc out h w hw
    simp only [buildWrong] at h
    split at h
    · cases h; exact Or.inl hw
    · split at h
      case isTrue hcond =>
        rcases ih _ _ h w hw with hmem | ⟨⟨d1, hd1, hw1⟩, hne, hnn⟩
        · rcases List.mem_append.mp hmem with h1 | h2
          · exact Or.inl h1
          · refine Or.inr ⟨⟨d, List.mem_cons_self d rest, ?_⟩, ?_, ?_⟩
            · simpa using h2
            · have : w = answer + d := by simpa using h2
              exact this ▸ hcond.1
            · have : w = answer + d := by simpa using h2
              exact this ▸ hcond.2.1
        · exact Or.inr ⟨⟨d1, List.mem_cons_of_mem d hd1, hw1⟩, hne, hnn⟩
      case isFalse =>
        rcases ih _ _ h w hw with hmem | ⟨⟨d1, hd1, hw1⟩, hne, hnn⟩
        · exact Or.inl hmem
        · exact Or.inr ⟨⟨d1, List.mem_cons_of_mem d hd1, hw1⟩, hne, hnn⟩

lemma buildWrong_nodup (answer : Int) :
    ∀ (diffs acc out : List Int), buildWrong answer acc diffs = some out →
      acc.Nodup → out.Nodup := by
  intro diffs
  induction diffs with
  | nil =>
    intro acc out h hacc
    simp only [buildWrong] at h
    split at h
    · cases h; exact hacc
    · cases h
  | cons d rest ih =>
    intro acc out h hacc
    simp only [buildWrong] at h
    split at h
    · cases h; exact hacc
    · split at h
      case isTrue hcond =>
        refine ih _ _ h ?_
        simp only [List.nodup_append, List.nodup_cons, List.nodup_nil]
        exact ⟨hacc, by simp, by simpa using fun hmem => hcond.2.2 hmem⟩
      case isFalse => exact ih _ _ h hacc

lemma buildWrong_length (answer : Int) :
    ∀ (diffs acc out : List Int), buildWrong answer acc diffs = some out →
      acc.length ≤ 3 → out.length = 3 := by
  intro diffs
  induction diffs with
  | nil =>
    intro acc out h hacc
    simp only [buildWrong] at h
    split at h
    · cases h; omega
    · cases h
  | cons d rest ih =>
    intro acc out h hacc
    simp only [buildWrong] at h
    split at h
    · cases h; omega
    · split at h
      case isTrue hcond =>
        refine ih _ _ h ?_
        simp only [List.length_append, List.length_cons, List.length_nil]
        omega
      case isFalse => exact ih _ _ h hacc

lemma map_getD_range (l : List Int) :
    (List.range l.length).map (fun i => l.getD i 0) = l := by
  apply List.ext_getElem
  · simp
  · intro i h1 h2
    simp only [List.getElem_map, List.getElem_range]
    exact List.getD_eq_getElem l 0 h2

lemma applyShuffle_perm (sel : List Nat) (l : List Int) :
    (applyShuffle sel l).Perm l := by
  unfold applyShuffle
  split
  case isTrue h =>
    have hp : sel.Perm (List.range l.length) := List.isPerm_iff.mp h
    have := hp.map (fun i => l.getD i 0)
    rwa [map_getD_range] at this
  case isFalse _ => exact List.Perm.refl l

lemma generate_split (d : CaptchaDraws) (out : CaptchaOut)
    (h : generate_captcha_image d = some out) :
    ∃ wrong,
      buildWrong (captchaAnswer (chooseOp d.opSel) d.aRaw d.bRaw) []
          (d.diffRaws.map diffDraw) = some wrong ∧
      out.answer = captchaAnswer (chooseOp d.opSel) d.aRaw d.bRaw ∧
      out.options.Perm (wrong ++ [out.answer]) := by
  unfold generate_captcha_image at h
  rcases Option.map_eq_some'.mp h with ⟨wrong, hb, heq⟩
  refine ⟨wrong, hb, ?_, ?_⟩
  · rw [← heq]
  · rw [← heq]
    exact applyShuffle_perm _ _

lemma generate_nonneg (d : CaptchaDraws) (out : CaptchaOut)
    (h : generate_captcha_image d = some out) : ∀ w ∈ out.options, 0 ≤ w := by
  rcases generate_split d out h with ⟨wrong, hb, hans, hperm⟩
  intro w hw
  have hw2 : w ∈ wrong ++ [out.answer] := hperm.mem_iff.mp hw
  rcases List.mem_append.mp hw2 with h1 | h2
  · rcases buildWrong_sound _ _ _ _ hb w h1 with hacc | ⟨_, _, hnn⟩
    · simp at hacc
    · exact hnn
  · have heq : w = out.answer := by simpa using h2
    rw [heq, hans]
    exact captchaAnswer_nonneg _ _ _

/-- C7: every successful run of `generate_captcha_image` returns an option
set of exactly 4 pairwise-distinct values, in which the correct answer occurs
exactly once, and the correct answer is non-negative for all three
operators. -/
theorem C7_captcha_options (d : CaptchaDraws) (out : CaptchaOut)
    (h : generate_captcha_image d = some out) :
    out.options.length = 4 ∧ out.options.Nodup ∧
      out.options.count out.answer = 1 ∧ 0 ≤ out.answer := by
  rcases generate_split d out h with ⟨wrong, hb, hans, hperm⟩
  have hnodup : wrong.Nodup := buildWrong_nodup _ _ _ _ hb List.nodup_nil
  have hlen : wrong.length = 3 := buildWrong_length _ _ _ _ hb (by simp)
  have hnotmem : out.answer ∉ wrong := by
    intro hmem
    rcases buildWrong_sound _ _ _ _ hb _ hmem with hacc | ⟨_, hne, _⟩
    · simp at hacc
    · exact hne hans
  refine ⟨?_, ?_, ?_, hans ▸ captchaAnswer_nonneg _ _ _⟩
  · rw [hperm.length_eq, List.length_append, hlen]
    rfl
  · rw [hperm.nodup_iff]
    simp only [List.nodup_append, List.nodup_cons, List.nodup_nil]
    exact ⟨hnodup, by simp, by simpa using hnotmem⟩
  · rw [hperm.count_eq, List.count_append, List.count_eq_zero.mpr hnotmem]
    simp

/-- C7 witness: a concrete run (operator `+`, operands 1 and 1, decoy diffs
1, 2, 3, identity shuffle) yields answer 2 and options [3, 4, 5, 2]. -/
theorem C7_captcha_options_witness :
    (CaptchaOut.mk 2 [3, 4, 5, 2]).options.length = 4 ∧
      (CaptchaOut.mk 2 [3, 4, 5, 2]).options.Nodup ∧
      (CaptchaOut.mk 2 [3, 4, 5, 2]).options.count (CaptchaOut.mk 2 [3, 4, 5, 2]).answer = 1 ∧
      0 ≤ (CaptchaOut.mk 2 [3, 4, 5, 2]).answer :=
  C7_captcha_options ⟨0, 0, 0, [(0, true), (1, true), (2, true)], [0, 1, 2, 3]⟩
    ⟨2, [3, 4, 5, 2]⟩ (by decide)

/-- C8 counterexample: the claim asserts that some generation run yields a
negative decoy; in fact the decoy loop of `generate_captcha_image` rejects
every negative candidate (`w >= 0` is part of its acceptance test), so no
run ever puts a negative value among the options. -/
theorem C8_no_negative_decoy :
    ¬ ∃ (d : CaptchaDraws) (out : CaptchaOut),
        generate_captcha_image d = some out ∧ ∃ w ∈ out.options, w < 0 := by
  rintro ⟨d, out, h, w, hw, hneg⟩
  have := generate_nonneg d out h w hw
  omega

/-- C8 amended: each option is the answer itself or a decoy obtained from the
answer by a non-zero offset of magnitude between 1 and 10 of either sign, and
— because the construction also rejects negative candidates — every option is
non-negative. -/
theorem C8_decoy_structure (d : CaptchaDraws) (out : CaptchaOut)
    (h : generate_captcha_image d = some out) :
    ∀ w ∈ out.options, 0 ≤ w ∧
      (w = out.answer ∨ ∃ k : Int, 1 ≤ |k| ∧ |k| ≤ 10 ∧ w = out.answer + k) := by
  rcases generate_split d out h with ⟨wrong, hb, hans, hperm⟩
  intro w hw
  have hw2 : w ∈ wrong ++ [out.answer] := hperm.mem_iff.mp hw
  rcases List.mem_append.mp hw2 with h1 | h2
  · rcases buildWrong_sound _ _ _ _ hb w h1 with hacc | ⟨⟨dd, hdd, hwd⟩, _hne, hnn⟩
    · simp at hacc
    · refine ⟨hnn, Or.inr ⟨dd, ?_, ?_, by rw [hans, ← hwd]⟩⟩
      · rcases List.mem_map.mp hdd with ⟨x, _, hx⟩
        exact hx ▸ (diffDraw_range x).1
      · rcases List.mem_map.mp hdd with ⟨x, _, hx⟩
        exact hx ▸ (diffDraw_range x).2
  · have heq : w = out.answer := by simpa using h2
    refine ⟨?_, Or.inl heq⟩
    rw [heq, hans]
    exact captchaAnswer_nonneg _ _ _

/-- C8 amended witness: in the concrete run of the C7 witness, option 3 is a
decoy of the answer 2 at offset 1, and is non-negative. -/
theorem C8_decoy_structure_witness :
    0 ≤ (3 : Int) ∧
      ((3 : Int) = (CaptchaOut.mk 2 [3, 4, 5, 2]).answer ∨
        ∃ k : Int, 1 ≤ |k| ∧ |k| ≤ 10 ∧ (3 : Int) = (CaptchaOut.mk 2 [3, 4, 5, 2]).answer + k) :=
  C8_decoy_structure ⟨0, 0, 0, [(0, true), (1, true), (2, true)], [0, 1, 2, 3]⟩
    ⟨2, [3, 4, 5, 2]⟩ (by decide) 3 (by decide)

/-! ### Lemmas about the vote ledger -/

/-- A fixed poll id used to instantiate theorems on concrete inputs. -/
def pollA : String := "p"

lemma add_vote_cases (t : VotesTable) (p : String) (u : Nat) (oi : Nat)
    (envs : List AttemptEnv) :
    ((add_vote t p u oi envs).success = true ∧ has_voted t p u = false ∧
      (add_vote t p u oi envs).table = insertVote t p u oi) ∨
    ((add_vote t p u oi envs).success = false ∧ (add_vote t p u oi envs).table = t) := by
  unfold add_vote runAttempt
  cases envs.getD 0 AttemptEnv.ok <;> cases envs.getD 1 AttemptEnv.ok <;>
    cases envs.getD 2 AttemptEnv.ok <;> by_cases hv : has_voted t p u <;> simp [hv]

lemma has_voted_false_filter (t : VotesTable) (p : String) (u : Nat)
    (h : has_voted t p u = false) :
    t.rows.filter (fun r => r.poll_id == p && r.user_id == u) = [] := by
  rw [List.filter_eq_nil_iff]
  intro r hr
  simp only [has_voted, List.any_eq_false] at h
  exact h r hr

lemma has_voted_filter_ne (t : VotesTable) (p : String) (u : Nat)
    (h : t.rows.filter (fun r => r.poll_id == p && r.user_id == u) ≠ []) :
    has_voted t p u = true := by
  rcases List.exists_mem_of_ne_nil _ h with ⟨r, hr⟩
  have hr2 := List.of_mem_filter hr
  simp only [has_voted, List.any_eq_true]
  exact ⟨r, List.mem_of_mem_filter hr, hr2⟩

/-- The central uniqueness invariant: at most one row per (poll, voter). -/
def uniqueVotes (t : VotesTable) : Prop :=
  ∀ p u, (t.rows.filter (fun r => r.poll_id == p && r.user_id == u)).length ≤ 1

lemma uniqueVotes_insert (t : VotesTable) (p : String) (u : Nat) (oi : Nat)
    (h : uniqueVotes t) (hnv : has_voted t p u = false) :
    uniqueVotes (insertVote t p u oi) := by
  intro p1 u1
  simp only [insertVote, List.filter_append]
  by_cases hk : p1 = p ∧ u1 = u
  · rcases hk with ⟨rfl, rfl⟩
    rw [has_voted_false_filter t _ _ hnv]
    simp
  · have hone : (List.filter (fun r => r.poll_id == p1 && r.user_id == u1)
        [(⟨t.nextId, p, u, oi⟩ : VoteRow)]) = [] := by
      simp only [List.filter_eq_nil_iff, List.mem_singleton]
      rintro r rfl
      simp only [Bool.and_eq_true, beq_iff_eq, not_and]
      intro h1 h2
      exact hk ⟨h1.symm, h2.symm⟩
    rw [hone, List.append_nil]
    exact h p1 u1

lemma reachable_uniqueVotes (t : VotesTable) (h : Reachable t) : uniqueVotes t := by
  induction h with
  | init => intro p u; simp [VotesTable.empty]
  | step t p u oi envs _ ih =>
    rcases add_vote_cases t p u oi envs with ⟨_, hnv, htab⟩ | ⟨_, htab⟩
    · rw [htab]; exact uniqueVotes_insert _ _ _ _ ih hnv
    · rw [htab]; exact ih

/-- C1: in every reachable vote-store state, at most one row exists per
(poll, voter); a commit when a row already exists returns `False` (the
already-voted outcome) and leaves the table unchanged; a commit that returns
`True` durably inserted the single row for its key into a table that had
none. -/
theorem C1_vote_uniqueness (t : VotesTable) (h : Reachable t) (p : String) (u : Nat)
    (oi : Nat) (envs : List AttemptEnv) :
    (t.rows.filter (fun r => r.poll_id == p && r.user_id == u)).length ≤ 1 ∧
    (has_voted t p u = true →
      (add_vote t p u oi envs).success = false ∧ (add_vote t p u oi envs).table = t) ∧
    ((add_vote t p u oi envs).success = true →
      has_voted t p u = false ∧
      ((add_vote t p u oi envs).table.rows.filter
          (fun r => r.poll_id == p && r.user_id == u)).length = 1) := by
  refine ⟨reachable_uniqueVotes t h p u, ?_, ?_⟩
  · intro hv
    rcases add_vote_cases t p u oi envs with ⟨_, hnv, _⟩ | ⟨hs, htab⟩
    · rw [hv] at hnv; cases hnv
    · exact ⟨hs, htab⟩
  · intro hs
    rcases add_vote_cases t p u oi envs with ⟨_, hnv, htab⟩ | ⟨hf, _⟩
    · refine ⟨hnv, ?_⟩
      rw [htab]
      simp only [insertVote, List.filter_append, has_voted_false_filter t p u hnv]
      simp
    · rw [hs] at hf; cases hf

/-- C1 witness: after one committing call on the fresh store, the (pollA, 1)
key has exactly one row, and a second call for the same key fails and leaves
the store unchanged. -/
theorem C1_vote_uniqueness_witness :
    ((add_vote VotesTable.empty pollA 1 0 []).table.rows.filter
        (fun r => r.poll_id == pollA && r.user_id == 1)).length ≤ 1 :=
  (C1_vote_uniqueness _ (Reachable.step _ pollA 1 0 [] Reachable.init) pollA 1 0 []).1

/-- C2 counterexample: a uniqueness-constraint violation (duplicate key,
storage healthy) and a non-contention storage failure (fresh store) produce
the same caller-visible result `False`, so `add_vote`'s caller cannot
distinguish a duplicate vote from a transient storage failure. -/
theorem C2_outcomes_indistinguishable :
    (add_vote (insertVote VotesTable.empty pollA 1 0) pollA 1 0 [AttemptEnv.ok]).success
        = false ∧
    (add_vote VotesTable.empty pollA 1 0 [AttemptEnv.otherFail]).success = false := by
  constructor <;> rfl

/-- C2 amended: `add_vote` returns a boolean, not a three-way outcome: `True`
exactly when it durably inserted the row; a uniqueness-constraint violation
and any storage failure both yield `False`, so the result does not
distinguish a duplicate vote from a transient storage failure. -/
theorem C2_commit_boolean (t : VotesTable) (p : String) (u : Nat) (oi : Nat)
    (envs : List AttemptEnv) :
    ((add_vote t p u oi envs).success = true ↔
      has_voted t p u = false ∧ (add_vote t p u oi envs).table = insertVote t p u oi) ∧
    (has_voted t p u = true → (add_vote t p u oi envs).success = false) ∧
    (envs.getD 0 AttemptEnv.ok = AttemptEnv.otherFail →
      (add_vote t p u oi envs).success = false ∧ (add_vote t p u oi envs).table = t) := by
  have hne : insertVote t p u oi ≠ t := by
    intro he
    have := congrArg (fun s => s.rows.length) he
    simp [insertVote] at this
  refine ⟨⟨?_, ?_⟩, ?_, ?_⟩
  · intro hs
    rcases add_vote_cases t p u oi envs with ⟨_, hnv, htab⟩ | ⟨hf, _⟩
    · exact ⟨hnv, htab⟩
    · rw [hs] at hf; cases hf
  · rintro ⟨hnv, htab⟩
    rcases add_vote_cases t p u oi envs with ⟨hs, _, _⟩ | ⟨_, htab2⟩
    · exact hs
    · rw [htab] at htab2; exact absurd htab2 hne
  · intro hv
    rcases add_vote_cases t p u oi envs with ⟨_, hnv, _⟩ | ⟨hf, _⟩
    · rw [hv] at hnv; cases hnv
    · exact hf
  · intro henv
    unfold add_vote runAttempt
    rw [henv]
    simp

/-- C2 amended witness: on the fresh store a healthy commit returns `True`
and durably inserts; the failing cases of the concrete counterexample are
covered by the other conjuncts. -/
theorem C2_commit_boolean_witness :
    (add_vote VotesTable.empty pollA 1 0 []).success = true ↔
      has_voted VotesTable.empty pollA 1 = false ∧
      (add_vote VotesTable.empty pollA 1 0 []).table = insertVote VotesTable.empty pollA 1 0 :=
  (C2_commit_boolean VotesTable.empty pollA 1 0 []).1

/-- C5: the INSERT runs at most 3 times per `add_vote` call; when every
attempt hits lock contention the call performs exactly 3 attempts with the
increasing backoff sleeps 300 ms then 600 ms and returns `False`; a
non-contention storage failure on the first attempt, or a uniqueness
violation, returns `False` after exactly one execution with no sleep. -/
theorem C5_retry_bound (t : VotesTable) (p : String) (u : Nat) (oi : Nat)
    (envs : List AttemptEnv) :
    (add_vote t p u oi envs).inserts ≤ 3 ∧
    (envs.getD 0 AttemptEnv.ok = AttemptEnv.locked →
      envs.getD 1 AttemptEnv.ok = AttemptEnv.locked →
      envs.getD 2 AttemptEnv.ok = AttemptEnv.locked →
      add_vote t p u oi envs = ⟨false, t, 3, [300, 600]⟩) ∧
    (envs.getD 0 AttemptEnv.ok = AttemptEnv.otherFail →
      add_vote t p u oi envs = ⟨false, t, 1, []⟩) ∧
    (envs.getD 0 AttemptEnv.ok = AttemptEnv.ok → has_voted t p u = true →
      add_vote t p u oi envs = ⟨false, t, 1, []⟩) := by
  refine ⟨?_, ?_, ?_, ?_⟩
  · unfold add_vote runAttempt
    cases envs.getD 0 AttemptEnv.ok <;> cases envs.getD 1 AttemptEnv.ok <;>
      cases envs.getD 2 AttemptEnv.ok <;> by_cases hv : has_voted t p u <;> simp [hv]
  · intro h0 h1 h2
    unfold add_vote runAttempt
    rw [h0, h1, h2]
  · intro h0
    unfold add_vote runAttempt
    rw [h0]
  · intro h0 hv
    unfold add_vote runAttempt
    rw [h0]
    simp [hv]

/-- C5 witness: with lock contention on all three attempts, the concrete call
performs 3 attempts, sleeps 300 ms then 600 ms, and fails. -/
theorem C5_retry_bound_witness :
    add_vote VotesTable.empty pollA 1 0
        [AttemptEnv.locked, AttemptEnv.locked, AttemptEnv.locked]
      = ⟨false, VotesTable.empty, 3, [300, 600]⟩ :=
  (C5_retry_bound VotesTable.empty pollA 1 0
      [AttemptEnv.locked, AttemptEnv.locked, AttemptEnv.locked]).2.1 rfl rfl rfl

/-! ### Sequence numbers: C6 and C9 -/

/-- Insertion-order ids are strictly increasing along `rows` and below the
AUTOINCREMENT counter. -/
def idsIncreasing (t : VotesTable) : Prop :=
  t.rows.Pairwise (fun r s => r.id < s.id) ∧ ∀ r ∈ t.rows, r.id < t.nextId

lemma idsIncreasing_insert (t : VotesTable) (p : String) (u : Nat) (oi : Nat)
    (h : idsIncreasing t) : idsIncreasing (insertVote t p u oi) := by
  constructor
  · simp only [insertVote]
    rw [List.pairwise_append]
    refine ⟨h.1, List.pairwise_singleton _ _, ?_⟩
    intro r hr s hs
    simp only [List.mem_singleton] at hs
    subst hs
    exact h.2 r hr
  · intro r hr
    rcases List.mem_append.mp hr with h1 | h2
    · have := h.2 r h1
      simp only [insertVote]
      omega
    · simp only [List.mem_singleton] at h2
      subst h2
      simp [insertVote]

lemma reachable_idsIncreasing (t : VotesTable) (h : Reachable t) : idsIncreasing t := by
  induction h with
  | init => exact ⟨List.Pairwise.nil, by simp [VotesTable.empty]⟩
  | step t p u oi envs _ ih =>
    rcases add_vote_cases t p u oi envs with ⟨_, _, htab⟩ | ⟨_, htab⟩
    · rw [htab]; exact idsIncreasing_insert _ _ _ _ ih
    · rw [htab]; exact ih

lemma subquery_eq_single (t : VotesTable) (huniq : uniqueVotes t) (p : String)
    (r : VoteRow) (hr : r ∈ t.rows) (hrp : r.poll_id = p) :
    t.rows.filter (fun s => s.poll_id == p && s.user_id == r.user_id) = [r] := by
  have hrmem : r ∈ t.rows.filter (fun s => s.poll_id == p && s.user_id == r.user_id) :=
    List.mem_filter.mpr ⟨hr, by simp [hrp]⟩
  have hlen := huniq p r.user_id
  rcases hfil : t.rows.filter (fun s => s.poll_id == p && s.user_id == r.user_id)
    with _ | ⟨x, rest⟩
  · rw [hfil] at hrmem; cases hrmem
  · rw [hfil] at hrmem hlen
    simp only [List.length_cons] at hlen
    have hrest : rest = [] := List.length_eq_zero.mp (by omega)
    subst hrest
    have hx := List.mem_singleton.mp hrmem
    subst hx
    exact hfil

lemma get_vote_number_formula (t : VotesTable) (huniq : uniqueVotes t) (p : String)
    (r : VoteRow) (hr : r ∈ t.rows) (hrp : r.poll_id = p) :
    get_vote_number t p r.user_id
      = (t.rows.filter (fun s => s.poll_id == p && decide (s.id ≤ r.id))).length := by
  unfold get_vote_number
  rw [subquery_eq_single t huniq p r hr hrp]
  rfl

lemma filter_poll_id_le (t : VotesTable) (p : String) (x : Nat) :
    t.rows.filter (fun s => s.poll_id == p && decide (s.id ≤ x))
      = (pollVotes t p).filter (fun s => decide (s.id ≤ x)) := by
  unfold pollVotes
  rw [List.filter_filter]
  exact List.filter_congr (fun a _ => Bool.and_comm _ _)

lemma get_vote_number_eq_rank (t : VotesTable) (huniq : uniqueVotes t) (p : String)
    (r : VoteRow) (hr : r ∈ t.rows) (hrp : r.poll_id = p) :
    get_vote_number t p r.user_id
      = (((pollVotes t p).map VoteRow.id).filter (fun y => decide (y ≤ r.id))).length := by
  rw [get_vote_number_formula t huniq p r hr hrp, filter_poll_id_le, List.filter_map,
    List.length_map]
  rfl

lemma rank_map_of_sorted (ids : List Nat) (hp : ids.Pairwise (· < ·)) :
    ids.map (fun x => (ids.filter (fun y => decide (y ≤ x))).length)
      = List.range' 1 ids.length := by
  induction ids with
  | nil => rfl
  | cons a rest ih =>
    have ha : ∀ y ∈ rest, a < y := (List.pairwise_cons.mp hp).1
    have hrest := (List.pairwise_cons.mp hp).2
    simp only [List.map_cons, List.length_cons, List.range'_succ]
    congr 1
    · simp only [List.filter_cons, decide_eq_true_eq]
      rw [if_pos (le_refl a)]
      have h0 : rest.filter (fun y => decide (y ≤ a)) = [] := by
        rw [List.filter_eq_nil_iff]
        intro y hy
        simp only [decide_eq_true_eq]
        exact Nat.not_le.mpr (ha y hy)
      rw [h0]
      rfl
    · have hstep : rest.map (fun x => ((a :: rest).filter (fun y => decide (y ≤ x))).length)
          = rest.map (fun x => (rest.filter (fun y => decide (y ≤ x))).length + 1) := by
        apply List.map_congr_left
        intro x hx
        simp only [List.filter_cons, decide_eq_true_eq]
        rw [if_pos (Nat.le_of_lt (ha x hx))]
        rfl
      rw [hstep]
      have hmm : rest.map (fun x => (rest.filter (fun y => decide (y ≤ x))).length + 1)
          = (rest.map (fun x => (rest.filter (fun y => decide (y ≤ x))).length)).map
              (fun n => n + 1) := by
        rw [List.map_map]
        rfl
      rw [hmm, ih hrest]
      have := List.map_add_range' 1 1 rest.length 1
      rw [← this]
      exact List.map_congr_left (fun a _ => Nat.add_comm a 1)

lemma filter_le_length_mono (ids : List Nat) (a b : Nat) (hab : a ≤ b) :
    (ids.filter (fun y => decide (y ≤ a))).length
      ≤ (ids.filter (fun y => decide (y ≤ b))).length := by
  induction ids with
  | nil => simp
  | cons x rest ih =>
    simp only [List.filter_cons, decide_eq_true_eq]
    by_cases hx : x ≤ a
    · rw [if_pos hx, if_pos (by omega)]
      simpa using ih
    · by_cases hx2 : x ≤ b
      · rw [if_neg hx, if_pos hx2]
        simp only [List.length_cons]
        omega
      · rw [if_neg hx, if_neg hx2]
        exact ih

lemma filter_le_length_lt (ids : List Nat) (a b : Nat) (hb : b ∈ ids) (hab : a < b) :
    (ids.filter (fun y => decide (y ≤ a))).length
      < (ids.filter (fun y => decide (y ≤ b))).length := by
  induction ids with
  | nil => cases hb
  | cons x rest ih =>
    simp only [List.filter_cons, decide_eq_true_eq]
    rcases List.mem_cons.mp hb with rfl | hbr
    · rw [if_neg (by omega), if_pos (le_refl _)]
      simp only [List.length_cons]
      have := filter_le_length_mono rest a b (Nat.le_of_lt hab)
      omega
    · have hrec := ih hbr
      by_cases hx : x ≤ a
      · rw [if_pos hx, if_pos (by omega)]
        simp only [List.length_cons]
        omega
      · by_cases hx2 : x ≤ b
        · rw [if_neg hx, if_pos hx2]
          simp only [List.length_cons]
          omega
        · rw [if_neg hx, if_neg hx2]
          exact hrec

lemma mem_pollVotes (t : VotesTable) (p : String) (r : VoteRow)
    (hr : r ∈ t.rows) (hrp : r.poll_id = p) : r ∈ pollVotes t p :=
  List.mem_filter.mpr ⟨hr, by simp [hrp]⟩

lemma pollVotes_poll_id (t : VotesTable) (p : String) (r : VoteRow)
    (hr : r ∈ pollVotes t p) : r ∈ t.rows ∧ r.poll_id = p := by
  have h1 := List.mem_of_mem_filter hr
  have h2 := List.of_mem_filter hr
  simp only [beq_iff_eq] at h2
  exact ⟨h1, h2⟩

/-- C6: in every reachable state, the sequence number of a voter with a vote
in poll `p` is the count of votes of `p` whose insertion id is at most that
vote's id; across the poll's votes (in insertion order), the sequence numbers
are exactly 1, 2, …, total — a gap-free, duplicate-free enumeration — and the
sequence number is strictly increasing with the insertion-order id. -/
theorem C6_sequence_number_bijection (t : VotesTable) (h : Reachable t) (p : String) :
    (∀ r ∈ t.rows, r.poll_id = p →
      get_vote_number t p r.user_id
        = (t.rows.filter (fun s => s.poll_id == p && decide (s.id ≤ r.id))).length) ∧
    ((pollVotes t p).map (fun r => get_vote_number t p r.user_id)
      = List.range' 1 (pollVotes t p).length) ∧
    (∀ r ∈ t.rows, ∀ s ∈ t.rows, r.poll_id = p → s.poll_id = p → r.id < s.id →
      get_vote_number t p r.user_id < get_vote_number t p s.user_id) := by
  have huniq := reachable_uniqueVotes t h
  have hids := reachable_idsIncreasing t h
  have hsorted : ((pollVotes t p).map VoteRow.id).Pairwise (· < ·) := by
    rw [List.pairwise_map]
    exact List.Pairwise.sublist (List.filter_sublist t.rows) hids.1
  refine ⟨?_, ?_, ?_⟩
  · intro r hr hrp
    exact get_vote_number_formula t huniq p r hr hrp
  · have hcongr : (pollVotes t p).map (fun r => get_vote_number t p r.user_id)
        = (pollVotes t p).map (fun r =>
            (((pollVotes t p).map VoteRow.id).filter (fun y => decide (y ≤ r.id))).length) := by
      apply List.map_congr_left
      intro r hrL
      rcases pollVotes_poll_id t p r hrL with ⟨hr, hrp⟩
      exact get_vote_number_eq_rank t huniq p r hr hrp
    rw [hcongr]
    have hcomp : (pollVotes t p).map (fun r =>
          (((pollVotes t p).map VoteRow.id).filter (fun y => decide (y ≤ r.id))).length)
        = ((pollVotes t p).map VoteRow.id).map (fun x =>
            (((pollVotes t p).map VoteRow.id).filter (fun y => decide (y ≤ x))).length) := by
      rw [List.map_map]
      rfl
    rw [hcomp, rank_map_of_sorted _ hsorted, List.length_map]
  · intro r hr s hs hrp hsp hlt
    rw [get_vote_number_eq_rank t huniq p r hr hrp,
      get_vote_number_eq_rank t huniq p s hs hsp]
    refine filter_le_length_lt _ r.id s.id ?_ hlt
    exact List.mem_map.mpr ⟨s, mem_pollVotes t p s hs hsp, rfl⟩

/-- C6 witness: a concrete reachable store with two votes in pollA, whose
sequence numbers enumerate 1, 2 in insertion order. -/
theorem C6_sequence_number_bijection_witness :
    ((pollVotes (add_vote (add_vote VotesTable.empty pollA 1 0 []).table pollA 2 1 []).table
          pollA).map
        (fun r => get_vote_number
          (add_vote (add_vote VotesTable.empty pollA 1 0 []).table pollA 2 1 []).table
          pollA r.user_id))
      = List.range' 1
          (pollVotes (add_vote (add_vote VotesTable.empty pollA 1 0 []).table pollA 2 1 []).table
            pollA).length :=
  (C6_sequence_number_bijection _
    (Reachable.step _ pollA 2 1 [] (Reachable.step _ pollA 1 0 [] Reachable.init)) pollA).2.1

/-- C9: when no vote row exists for (poll, voter), `get_vote_number` returns
0 (the scalar subquery is empty, so no rows are counted) instead of raising;
and 0 is outside the range of real sequence numbers, every one of which is at
least 1. -/
theorem C9_missing_vote_number_zero (t : VotesTable) (p : String) (u : Nat) :
    (t.rows.filter (fun r => r.poll_id == p && r.user_id == u) = [] →
      get_vote_number t p u = 0) ∧
    (∀ r ∈ t.rows, r.poll_id = p → r.user_id = u → 1 ≤ get_vote_number t p u) := by
  constructor
  · intro hfil
    unfold get_vote_number
    rw [hfil]
    rfl
  · intro r hr hrp hru
    unfold get_vote_number
    rcases hfil : t.rows.filter (fun s => s.poll_id == p && s.user_id == u)
      with _ | ⟨row, rest⟩
    · have : r ∈ t.rows.filter (fun s => s.poll_id == p && s.user_id == u) :=
        List.mem_filter.mpr ⟨hr, by simp [hrp, hru]⟩
      rw [hfil] at this
      cases this
    · rw [hfil]
      show 1 ≤ (t.rows.filter (fun s => s.poll_id == p && decide (s.id ≤ row.id))).length
      have hrowmem : row ∈ t.rows.filter (fun s => s.poll_id == p && s.user_id == u) := by
        rw [hfil]
        exact List.mem_cons_self row rest
      have h1 := List.mem_of_mem_filter hrowmem
      have h2 := List.of_mem_filter hrowmem
      simp only [Bool.and_eq_true, beq_iff_eq] at h2
      have hmem2 : row ∈ t.rows.filter (fun s => s.poll_id == p && decide (s.id ≤ row.id)) :=
        List.mem_filter.mpr ⟨h1, by simp [h2.1]⟩
      have := List.length_pos.mpr (List.ne_nil_of_mem hmem2)
      omega

/-- C9 witness: on the empty store the number is 0; after voter 1's vote is
inserted its real sequence number is at least 1. -/
theorem C9_missing_vote_number_zero_witness :
    get_vote_number VotesTable.empty pollA 3 = 0 ∧
      1 ≤ get_vote_number (insertVote VotesTable.empty pollA 1 0) pollA 1 :=
  ⟨(C9_missing_vote_number_zero VotesTable.empty pollA 3).1 rfl,
    (C9_missing_vote_number_zero (insertVote VotesTable.empty pollA 1 0) pollA 1).2
      ⟨1, pollA, 1, 0⟩ (by simp [insertVote, VotesTable.empty]) rfl rfl⟩

/-! ### The challenge state machine: C3, C4, C10 -/

/-- A fixed poll used to instantiate theorems on concrete inputs. -/
def pollQ : Poll := ⟨"q", ["A", "B"]⟩

/-- C3: when the submitted answer is correct and brings rounds-solved to the
required count, `cb_captcha_answer` calls `add_vote` exactly once — whatever
the storage outcome, success or failure — and the session afterwards is
`none` (cleared unconditionally); and no single submission ever calls
`add_vote` more than once. -/
theorem C3_commit_once_session_cleared (N : Nat) (poll : Poll) (env : HandlerEnv)
    (t : VotesTable) (u : Nat) (sess : Session)
    (hN : N ≤ sess.captcha_solved + 1) :
    ((cb_captcha_answer N (some poll) env t u sess sess.captcha_answer).commitCalls = 1 ∧
      (cb_captcha_answer N (some poll) env t u sess sess.captcha_answer).session = none ∧
      (cb_captcha_answer N (some poll) env t u sess sess.captcha_answer).table
        = (add_vote t sess.poll_id u sess.option_index env.dbEnvs).table) ∧
    (∀ (pl : Option Poll) (selected : Int),
      (cb_captcha_answer N pl env t u sess selected).commitCalls ≤ 1) := by
  constructor
  · unfold cb_captcha_answer
    rw [if_neg (by simp)]
    simp only []
    rw [if_pos hN]
    exact ⟨rfl, rfl, rfl⟩
  · intro pl selected
    unfold cb_captcha_answer
    rcases pl with _ | poll2
    · simp
    · by_cases h1 : selected ≠ sess.captcha_answer
      · rw [if_pos h1]
        simp
      · rw [if_neg h1]
        simp only []
        by_cases h2 : N ≤ sess.captcha_solved + 1
        · rw [if_pos h2]
        · rw [if_neg h2]
          simp

/-- C3 witness: with required count 1 and a session at 0 solved rounds, the
correct answer commits once and clears the session, with the table that of
the one `add_vote` call. -/
theorem C3_commit_once_session_cleared_witness :
    (cb_captcha_answer 1 (some pollQ) ⟨7, []⟩ VotesTable.empty 42 ⟨pollA, 0, 0, 5⟩
        (Session.mk pollA 0 0 5).captcha_answer).commitCalls = 1 ∧
      (cb_captcha_answer 1 (some pollQ) ⟨7, []⟩ VotesTable.empty 42 ⟨pollA, 0, 0, 5⟩
        (Session.mk pollA 0 0 5).captcha_answer).session = none ∧
      (cb_captcha_answer 1 (some pollQ) ⟨7, []⟩ VotesTable.empty 42 ⟨pollA, 0, 0, 5⟩
        (Session.mk pollA 0 0 5).captcha_answer).table
        = (add_vote VotesTable.empty (Session.mk pollA 0 0 5).poll_id 42
            (Session.mk pollA 0 0 5).option_index (HandlerEnv.mk 7 []).dbEnvs).table :=
  (C3_commit_once_session_cleared 1 pollQ ⟨7, []⟩ VotesTable.empty 42
    ⟨pollA, 0, 0, 5⟩ (by decide)).1

/-- C4: a wrong answer leaves the rounds-solved counter unchanged, performs
no commit, sends a fresh puzzle for the same round number, and replaces the
session's stored answer with the new puzzle's answer — for every session
state at every round (there is no attempt counter, hence no lockout). -/
theorem C4_wrong_answer_same_round (N : Nat) (poll : Poll) (env : HandlerEnv)
    (t : VotesTable) (u : Nat) (sess : Session) (selected : Int)
    (hsel : selected ≠ sess.captcha_answer) :
    cb_captcha_answer N (some poll) env t u sess selected
      = ⟨some ⟨sess.poll_id, sess.option_index, sess.captcha_solved, env.newAnswer⟩,
          0, t, some (sess.captcha_solved, env.newAnswer), CaptchaMsg.wrongAnswer⟩ := by
  unfold cb_captcha_answer
  rw [if_pos hsel]

/-- C4 witness: submitting 4 against expected answer 5 regenerates round
(solved = 2 stays), stores the new answer 9, and does not commit. -/
theorem C4_wrong_answer_same_round_witness :
    cb_captcha_answer 3 (some pollQ) ⟨9, []⟩ VotesTable.empty 42 ⟨pollA, 0, 2, 5⟩ 4
      = ⟨some ⟨pollA, 0, 2, 9⟩, 0, VotesTable.empty, some (2, 9), CaptchaMsg.wrongAnswer⟩ :=
  C4_wrong_answer_same_round 3 pollQ ⟨9, []⟩ VotesTable.empty 42 ⟨pollA, 0, 2, 5⟩ 4 (by decide)

/-- C10: the chosen option index is never validated against the option list:
for every index at least the number of options, `cb_vote_option` still
starts the challenge — with the displayed label falling back to "?" — and a
completed challenge commits a vote row storing that out-of-range index; no
step fails. -/
theorem C10_out_of_range_index_accepted (poll : Poll) (env env2 : HandlerEnv)
    (t : VotesTable) (u : Nat) (p : String) (idx N solved : Nat) (ans : Int)
    (hidx : poll.options.length ≤ idx) (hnv : has_voted t p u = false)
    (hN : N ≤ solved + 1) (henv : env2.dbEnvs = [AttemptEnv.ok]) :
    cb_vote_option (some poll) env t u p idx
      = ⟨some ⟨p, idx, 0, env.newAnswer⟩, some (0, env.newAnswer),
          some unknownOption, BeginMsg.started⟩ ∧
    (cb_captcha_answer N (some poll) env2 t u ⟨p, idx, solved, ans⟩ ans).commitCalls = 1 ∧
    (cb_captcha_answer N (some poll) env2 t u ⟨p, idx, solved, ans⟩ ans).table.rows
      = t.rows ++ [⟨t.nextId, p, u, idx⟩] := by
  refine ⟨?_, ?_, ?_⟩
  · unfold cb_vote_option
    rw [hnv]
    simp only [Bool.false_eq_true, if_false]
    have hlab : chosenLabel poll.options idx = unknownOption := by
      unfold chosenLabel
      rw [dif_neg (by omega)]
    rw [hlab]
  · unfold cb_captcha_answer
    rw [if_neg (by simp)]
    simp only []
    rw [if_pos hN]
  · unfold cb_captcha_answer
    rw [if_neg (by simp)]
    simp only []
    rw [if_pos hN]
    show (add_vote t p u idx env2.dbEnvs).table.rows = _
    rw [henv]
    unfold add_vote runAttempt
    simp only [List.getD_cons_zero]
    rw [hnv]
    simp only [Bool.false_eq_true, if_false]
    rfl

/-- C10 witness: index 5 against the 2-option pollQ starts the challenge
with label "?", and the completing submission inserts a row recording
option index 5. -/
theorem C10_out_of_range_index_accepted_witness :
    cb_vote_option (some pollQ) ⟨7, [AttemptEnv.ok]⟩ VotesTable.empty 42 pollA 5
      = ⟨some ⟨pollA, 5, 0, 7⟩, some (0, 7), some unknownOption, BeginMsg.started⟩ ∧
    (cb_captcha_answer 1 (some pollQ) ⟨7, [AttemptEnv.ok]⟩ VotesTable.empty 42
        ⟨pollA, 5, 0, 9⟩ 9).commitCalls = 1 ∧
    (cb_captcha_answer 1 (some pollQ) ⟨7, [AttemptEnv.ok]⟩ VotesTable.empty 42
        ⟨pollA, 5, 0, 9⟩ 9).table.rows
      = VotesTable.empty.rows ++ [⟨VotesTable.empty.nextId, pollA, 42, 5⟩] :=
  C10_out_of_range_index_accepted pollQ ⟨7, [AttemptEnv.ok]⟩ ⟨7, [AttemptEnv.ok]⟩
    VotesTable.empty 42 pollA 5 1 0 9 (by decide) (by decide) (by decide) rfl

end AliensVoteBot
